import Mathlib

/-!
Verification of the `small_unique_ptr` library (src/small_unique_ptr.hpp).

The development shallowly embeds the library for a 64-bit architecture
(`sizeof(void*) = 8`), the only configuration the repository itself targets in
its tests.  A C++ owned type is represented by the record `CType` collecting
exactly the compile-time properties the header inspects; the compile-time
layout policy (`detail::buffer_size`, `detail::buffer_alignment`,
`detail::is_always_heap_allocated`) is transcribed function by function.  The
runtime behaviour of `small_unique_ptr` (move construction, move assignment,
`swap`, `reset`, the `make_unique_small` factories) is embedded as a state
machine over an explicit owner state, with the five `small_unique_ptr_base`
layout variants represented by the `Variant` type and the
`std::is_constant_evaluated()` mode as an explicit boolean parameter.

Owned objects are modelled by `Obj`: an observable value `val`, the base
sub-object offset `off` of the owner's view inside the concrete object
(what `offsetof_base` computes), and a moved-from marker `mf`.  Relocation of
an object (`move_buffer_to`) transports the value unchanged and leaves a
moved-from residue behind, which models nothrow-move-constructible types whose
move constructor copies the observable fields, exactly like the `Derived` /
`DerivedIntrusive` types of the repository's test suite.
-/

namespace Smp

/-- sizeof a pointer (also sizeof the `move_fn` callback) on the modelled
64-bit architecture. -/
def ptrSize : Nat := 8

/-- The compile-time properties of an owned type `T` that the header inspects.
For an unbounded array type `T = U[]` (`isArray = true`) the fields `size`,
`align`, `nothrowMove` and `isAbstract` describe the element type
`U = remove_cv_t<remove_extent_t<T>>`, while `isPolymorphic`,
`hasVirtualDestructor` and `hasVirtualMove` describe `T` itself (all three are
false for array types in C++). -/
structure CType where
  size : Nat
  align : Nat
  isPolymorphic : Bool
  hasVirtualDestructor : Bool
  hasVirtualMove : Bool
  nothrowMove : Bool
  isAbstract : Bool
  isArray : Bool
deriving DecidableEq, Repr

/-- Well-formedness of a `CType`, collecting the facts C++ guarantees about
any complete object type: positive size, power-of-two alignment not above
2^63, size a multiple of the alignment, a virtual destructor or a virtual
`small_unique_ptr_move` hook implies a polymorphic type, and array types are
never themselves polymorphic. -/
structure CType.WF (T : CType) : Prop where
  size_pos : 0 < T.size
  align_pow : ∃ k, k < 64 ∧ T.align = 2 ^ k
  align_dvd : T.align ∣ T.size
  hvd_poly : T.hasVirtualDestructor = true → T.isPolymorphic = true
  hvm_poly : T.hasVirtualMove = true → T.isPolymorphic = true
  array_not_poly : T.isArray = true →
    T.isPolymorphic = false ∧ T.hasVirtualDestructor = false ∧
      T.hasVirtualMove = false

/-- `detail::max_pow2_factor`: `n & (~n + 1)` in 64-bit arithmetic, the
largest power of two dividing `n` (for `0 < n < 2^64`). -/
def max_pow2_factor (n : Nat) : Nat := n &&& (2 ^ 64 - n)

/-- `detail::buffer_size<T, small_ptr_size>::value`.  The primary template
chooses, depending on `has_virtual_destructor`, between
`small_ptr_size - sizeof(T*) - !has_virtual_move<T> * sizeof(move_fn)` and
`min(sizeof(T), small_ptr_size - sizeof(T*))`; the partial specializations
give `small_ptr_size - sizeof(T*)` for unbounded arrays and `0` whenever
`small_ptr_size == sizeof(void*)`. -/
def buffer_size (T : CType) (S : Nat) : Nat :=
  if S = ptrSize then 0
  else if T.isArray then S - ptrSize
  else if T.hasVirtualDestructor then
    S - ptrSize - (if T.hasVirtualMove then 0 else ptrSize)
  else min T.size (S - ptrSize)

/-- `detail::buffer_alignment<T, small_ptr_size>::value`:
`max_pow2_factor(small_ptr_size)` for types with a virtual destructor and
`max_pow2_factor(min(alignof(T), small_ptr_size))` otherwise (for an array
type `has_virtual_destructor` is false and `alignof(U[]) = alignof(U)`). -/
def buffer_alignment (T : CType) (S : Nat) : Nat :=
  if T.hasVirtualDestructor then max_pow2_factor S
  else max_pow2_factor (min T.align S)

/-- `detail::is_always_heap_allocated_v<T, small_ptr_size>`. -/
def is_always_heap_allocated (T : CType) (S : Nat) : Bool :=
  decide (buffer_size T S < T.size) ||
  decide (buffer_alignment T S < T.align) ||
  (!T.nothrowMove && !T.isAbstract)

/-- The five mutually exclusive layout variants of
`detail::small_unique_ptr_base<T, Size>`:
the always-heap specialization, the non-polymorphic non-array inline variant
(`union` storage), the `has_virtual_move` variant, the array variant, and the
primary template (polymorphic without the virtual hook, with a stored
type-erased `move_fn` callback). -/
inductive Variant where
  | alwaysHeap
  | plain
  | virt
  | arr
  | generic
deriving DecidableEq, Repr

/-- Which `small_unique_ptr_base` specialization the C++ compiler selects for
the pair `(T, Size)`, per the requires-clauses of the header. -/
def variantOf (T : CType) (S : Nat) : Variant :=
  if is_always_heap_allocated T S then .alwaysHeap
  else if !T.isPolymorphic && !T.isArray then .plain
  else if T.hasVirtualMove then .virt
  else if T.isArray then .arr
  else .generic

/-- `small_unique_ptr<T, Size>::stack_buffer_size()`: `0` in the always-heap
case and `sizeof(buffer_t)` of the selected base otherwise (`sizeof(T)` for
the non-polymorphic variant, `buffer_size_v` bytes for the polymorphic
variants, and `array_size * sizeof(element)` for arrays, where
`array_size = buffer_size_v / sizeof(element)`). -/
def stack_buffer_size (T : CType) (S : Nat) : Nat :=
  match variantOf T S with
  | .alwaysHeap => 0
  | .plain => T.size
  | .virt => buffer_size T S
  | .generic => buffer_size T S
  | .arr => buffer_size T S / T.size * T.size

/-- `small_unique_ptr<T, Size>::stack_array_size()` (array types only):
`stack_buffer_size() / sizeof(element)`. -/
def stack_array_size (T : CType) (S : Nat) : Nat :=
  stack_buffer_size T S / T.size

/-- Round `n` up to the next multiple of `a` (standard C++ struct layout
padding; `alignUp n 0 = n` never arises for positive alignments). -/
def alignUp (n a : Nat) : Nat :=
  if a = 0 then n else (n + a - 1) / a * a

/-- `sizeof(small_unique_ptr<T, Size>)` under the Itanium C++ ABI: the class
privately inherits `small_unique_ptr_base` and adds no members, so its size is
the base's size.  Fields are laid out in declaration order (buffer, `data_`,
and for the primary template the `move_` callback), each placed at the next
offset aligned for it, and the total is rounded up to the struct alignment. -/
def sizeofSmallUniquePtr (T : CType) (S : Nat) : Nat :=
  match variantOf T S with
  | .alwaysHeap => ptrSize
  | .plain =>
      alignUp (alignUp T.size ptrSize + ptrSize) (max T.align ptrSize)
  | .virt =>
      alignUp (alignUp (buffer_size T S) ptrSize + ptrSize)
        (max (buffer_alignment T S) ptrSize)
  | .generic =>
      alignUp (alignUp (buffer_size T S) ptrSize + 2 * ptrSize)
        (max (buffer_alignment T S) ptrSize)
  | .arr =>
      alignUp (alignUp (buffer_size T S / T.size * T.size) ptrSize + ptrSize)
        (max T.align ptrSize)

/-- The polymorphic base type of the test suite (`Base`: a vtable pointer
only, virtual destructor, no virtual relocation hook). -/
def baseCT : CType :=
  ⟨8, 8, true, true, false, true, false, false⟩

/-- `Derived<32>` of the test suite: 8 (vptr) + 32 (padding) + 4 (int),
padded to alignment 8. -/
def smallDerivedCT : CType :=
  ⟨48, 8, true, true, false, true, false, false⟩

/-- `Derived<64>` of the test suite: 8 + 64 + 4, padded to alignment 8. -/
def largeDerivedCT : CType :=
  ⟨80, 8, true, true, false, true, false, false⟩

/-- `BaseIntrusive` of the test suite (virtual `small_unique_ptr_move`). -/
def baseIntrusiveCT : CType :=
  ⟨8, 8, true, true, true, true, false, false⟩

/-- `SmallPOD` of the test suite (one char). -/
def smallPODCT : CType :=
  ⟨1, 1, false, false, false, true, false, false⟩

/-- `SmallPOD[]`: unbounded array of one-byte elements. -/
def smallPODArrCT : CType :=
  ⟨1, 1, false, false, false, true, false, true⟩

/-- `LargePOD` of the test suite (128 chars): always heap-allocated. -/
def largePODCT : CType :=
  ⟨128, 1, false, false, false, true, false, false⟩

theorem sanity_buffer_size_base : buffer_size baseCT 64 = 48 := by decide

theorem sanity_buffer_size_intrusive :
    buffer_size baseIntrusiveCT 64 = 56 := by decide

theorem sanity_small_derived_inline :
    is_always_heap_allocated smallDerivedCT 64 = false := by decide

theorem sanity_large_derived_heap :
    is_always_heap_allocated largeDerivedCT 64 = true := by decide

theorem sanity_stack_buffer_size_pod :
    stack_buffer_size smallPODCT 64 = 1 := by decide

theorem sanity_stack_array_size_pod :
    stack_array_size smallPODArrCT 64 = 56 := by decide

theorem sanity_sizeof_small_derived :
    sizeofSmallUniquePtr smallDerivedCT 64 = 64 := by decide

theorem sanity_sizeof_large_derived :
    sizeofSmallUniquePtr largeDerivedCT 64 = 8 := by decide

theorem sanity_sizeof_base_24 :
    sizeofSmallUniquePtr baseCT 24 = 24 := by decide

theorem sanity_sizeof_base_16 :
    sizeofSmallUniquePtr baseCT 16 = 8 := by decide

/-! ### The runtime state machine

An owner (`small_unique_ptr` instance) is described by its storage state and
its `move_` callback slot.  Heap allocations are tracked by a list of live
allocation addresses, so that leaks and double frees are visible in the model.
The `ce` parameter of every operation is `std::is_constant_evaluated()`.
-/

/-- A live owned object: observable value, base sub-object offset of the
owner's view inside the concrete object (what `offsetof_base` returns for an
object placed at the start of a buffer; `0` for non-polymorphic types), and a
moved-from marker. -/
structure Obj where
  val : Nat
  off : Nat
  mf : Bool
deriving DecidableEq, Repr

/-- The moved-from residue an object leaves behind after being relocated out
of a buffer. -/
def Obj.asMovedFrom (o : Obj) : Obj := { o with mf := true }

/-- The unspecified result of reading storage that holds no live object
(reachable only through undefined-behaviour paths such as relocating out of a
buffer that holds no object). -/
def junkObj : Obj := ⟨0, 0, true⟩

/-- The value of a `data_` pointer: null, a heap address, or an address
inside the owner's own buffer at the given offset. -/
inductive Ptr where
  | heap (addr : Nat)
  | buf (off : Nat)
deriving DecidableEq, Repr

/-- The storage state of one owner: empty, heap-backed (`data_` points at a
heap allocation), or inline (`data_` points into the owner's buffer, which
holds the object). -/
inductive Storage where
  | null
  | heap (addr : Nat) (o : Obj)
  | stack (o : Obj)
deriving DecidableEq, Repr

/-- One `small_unique_ptr` instance: its storage plus whether the `move_`
callback field is set (meaningful only for the `generic` variant; the other
variants have a static no-op `move_`, modelled as a constant `false`). -/
structure Owner where
  stg : Storage
  mv : Bool
deriving DecidableEq, Repr

/-- A default-constructed (empty) owner: `data_ = nullptr`, `move_ = nullptr`. -/
def Owner.null : Owner := ⟨.null, false⟩

/-- `is_stack_allocated()`, per layout variant, exactly as each
specialization computes it: constant `false` for the always-heap variant,
`static_cast<bool>(move_)` for the primary template, `data_ != nullptr`
outside constant evaluation for the non-polymorphic variant, and an
address-range / address-equality test against the buffer for the virtual-move
and array variants (heap addresses never alias the buffer). -/
def Owner.isStack (w : Owner) (k : Variant) (ce : Bool) : Bool :=
  match k with
  | .alwaysHeap => false
  | .generic => w.mv
  | .plain => !ce && !(w.stg matches .null)
  | .virt => !ce && (w.stg matches .stack _)
  | .arr => !ce && (w.stg matches .stack _)

/-- `get()`: the current `data_` pointer. -/
def Owner.get (w : Owner) : Option Ptr :=
  match w.stg with
  | .null => none
  | .heap a _ => some (.heap a)
  | .stack o => some (.buf o.off)

/-- The object `data_` points at, if any. -/
def Owner.holdsObj (w : Owner) : Option Obj :=
  match w.stg with
  | .null => none
  | .heap _ o => some o
  | .stack o => some o

/-- The object read out of the owner's buffer by `move_buffer_to`
(`junkObj` when the buffer holds no live object, an undefined-behaviour
path). -/
def Owner.bufObj (w : Owner) : Obj :=
  match w.stg with
  | .stack o => o
  | _ => junkObj

/-- The `move_` value a relocation installs in the destination:
`move_buffer_to` copies the callback for the primary variant, the other
variants keep their static no-op `move_`. -/
def mvFor (k : Variant) (m : Bool) : Bool :=
  if k = .generic then m else false

/-- What relocating out of a storage leaves behind in the source owner: an
inline object becomes a moved-from residue (the source `data_` and `move_`
are not touched by the move paths); other storages are untouched. -/
def residue : Storage → Storage
  | .stack o => .stack o.asMovedFrom
  | s => s

/-- The pointer argument `reset` receives from
`reset(std::exchange(other.data_, nullptr))`: the source's `data_` together
with its pointee.  The `stack` case is unreachable on the paths that call
this (the source is not stack-allocated there). -/
def ptrOf : Storage → Option (Nat × Obj)
  | .null => none
  | .heap a o => some (a, o)
  | .stack o => some (0, o)

/-- Installing a pointer received by `reset` as the new storage. -/
def installPtr : Option (Nat × Obj) → Storage
  | none => .null
  | some p => .heap p.1 p.2

/-- `reset(new_data)`: `is_stack_allocated() ? reset_internal(new_data)
: reset_allocated(new_data)`.  `reset_internal` destroys the buffer object in
place (no deallocation) and clears `move_`; `reset_allocated` runs
`delete data_` (removing the address from the live set) and leaves `move_`
untouched. -/
def Owner.resetFn (w : Owner) (k : Variant) (ce : Bool)
    (p : Option (Nat × Obj)) (live : List Nat) : Owner × List Nat :=
  if w.isStack k ce then
    ({ stg := installPtr p, mv := false }, live)
  else
    ({ stg := installPtr p, mv := w.mv },
     match w.stg with
     | .heap a _ => live.erase a
     | _ => live)

/-- The destructor: `is_stack_allocated() ? destroy_buffer()
: destroy_allocated()`; only the heap branch deallocates. -/
def Owner.destroyOwner (w : Owner) (k : Variant) (ce : Bool)
    (live : List Nat) : List Nat :=
  if w.isStack k ce then live
  else
    match w.stg with
    | .heap a _ => live.erase a
    | _ => live

/-- The tagged move constructor
`small_unique_ptr(small_unique_ptr<U, Size>&&, constructor_tag_t)` at `U = T`:
a non-stack source has its `data_` transferred and nulled; a stack-allocated
source is relocated into the new owner's buffer (`move_buffer_to`, then
`data_ = buffer(base_offset)`), and the source is left untouched, still
pointing at the moved-from object.  Returns the constructed owner and the
source's final state. -/
def moveConstruct (k : Variant) (ce : Bool) (other : Owner) : Owner × Owner :=
  if other.isStack k ce then
    ({ stg := .stack other.bufObj, mv := mvFor k other.mv },
     { other with stg := residue other.stg })
  else
    ({ stg := other.stg, mv := false }, { other with stg := .null })

/-- The converting move assignment
`operator=(small_unique_ptr<U, Size>&&)` at `U = T`, for distinct objects:
a non-stack source is handed to `reset(std::exchange(other.data_, nullptr))`;
a stack-allocated source is relocated into this owner's buffer after
`destroy()`, and the source is left untouched.  Returns the assigned owner,
the source's final state, and the updated live-allocation set. -/
def moveAssign (k : Variant) (ce : Bool) (t other : Owner)
    (live : List Nat) : Owner × Owner × List Nat :=
  if other.isStack k ce then
    let live' :=
      if t.isStack k ce then live
      else
        match t.stg with
        | .heap a _ => live.erase a
        | _ => live
    ({ stg := .stack other.bufObj, mv := mvFor k other.mv },
     { other with stg := residue other.stg }, live')
  else
    let (t', live') := t.resetFn k ce (ptrOf other.stg) live
    (t', { other with stg := .null }, live')

/-- The non-template move assignment `operator=(small_unique_ptr&&)`:
`if (std::addressof(other) == this) return *this;` and otherwise the
converting assignment.  `same` states whether the two operands are the same
object. -/
def moveAssignEntry (k : Variant) (ce : Bool) (same : Bool) (t other : Owner)
    (live : List Nat) : Owner × Owner × List Nat :=
  if same then (t, other, live)
  else moveAssign k ce t other live

/-- `swap`, with its four runtime cases (the always-heap variant swaps the
pointers unconditionally): heap/heap pointer swap; stack/stack relocation
through a temporary base object, each destination `data_` recomputed from the
incoming object's base offset and each destination `move_` copied from the
incoming side; and the two mixed cases, which relocate the inline operand
into the other owner's buffer and hand the heap pointer over through
`reset_internal`. -/
def swapFn (k : Variant) (ce : Bool) (a b : Owner) : Owner × Owner :=
  if k = .alwaysHeap then
    ({ a with stg := b.stg }, { b with stg := a.stg })
  else if !(a.isStack k ce) && !(b.isStack k ce) then
    ({ a with stg := b.stg }, { b with stg := a.stg })
  else if a.isStack k ce && b.isStack k ce then
    ({ stg := .stack b.bufObj, mv := mvFor k b.mv },
     { stg := .stack a.bufObj, mv := mvFor k a.mv })
  else if !(a.isStack k ce) then
    ({ stg := .stack b.bufObj, mv := mvFor k b.mv },
     { stg := a.stg, mv := false })
  else
    ({ stg := b.stg, mv := false },
     { stg := .stack a.bufObj, mv := mvFor k a.mv })

/-- `make_unique_small<T>` via `make_unique_small_impl::invoke_scalar` on the
success path: heap-allocate when the type is always heap-allocated or the
context is constant-evaluated, otherwise construct in the buffer, installing
the `move_buffer<T>` callback exactly for the polymorphic-without-hook
(primary) variant.  `next` is the next fresh heap address. -/
def makeScalar (k : Variant) (ce : Bool) (o : Obj) (next : Nat)
    (live : List Nat) : Owner × Nat × List Nat :=
  if k = .alwaysHeap || ce then
    ({ stg := .heap next o, mv := false }, next + 1, next :: live)
  else
    ({ stg := .stack o, mv := mvFor k true }, next, live)

/-- `invoke_scalar` with a possibly-throwing constructor for the owned
object (`ok = false` means the constructor of `T` throws).  On the heap path
`new T(args...)` allocates, runs the constructor and, per the language rules
for a throwing new-expression, deallocates before the exception propagates;
on the buffer path nothing was allocated.  The owner's fields are assigned
only after construction returns, so a failure yields no owner at all. -/
def makeScalarF (k : Variant) (ce : Bool) (ok : Bool) (o : Obj) (next : Nat)
    (live : List Nat) : Except Unit Owner × Nat × List Nat :=
  if k = .alwaysHeap || ce then
    if ok then (.ok { stg := .heap next o, mv := false }, next + 1, next :: live)
    else (.error (), next + 1, (next :: live).erase next)
  else
    if ok then (.ok { stg := .stack o, mv := mvFor k true }, next, live)
    else (.error (), next, live)

/-- The statement `p = make_unique_small<T>(args...)`: run the factory; if
construction throws, the assignment does not happen and `p` is untouched;
otherwise move-assign from the returned temporary and destroy the temporary.
Returns the final `p`, whether the exception propagated, the next fresh
address and the live-allocation set. -/
def makeAssignF (k : Variant) (ce : Bool) (ok : Bool) (o : Obj) (p : Owner)
    (next : Nat) (live : List Nat) : Owner × Bool × Nat × List Nat :=
  match makeScalarF k ce ok o next live with
  | (.error _, n, l) => (p, true, n, l)
  | (.ok tmp, n, l) =>
      let (p', tmp', l') := moveAssign k ce p tmp l
      (p', false, n, tmp'.destroyOwner k ce l')

/-- `make_unique_small<T[]>(count)` via `invoke_array`, reduced to its
observable allocation decision: where the array lives, how many elements are
constructed, and whether they are value-initialized.  The heap path runs
`new std::remove_extent_t<T>[count]{}`; the buffer path runs
`std::uninitialized_value_construct_n(buffer(), stack_array_size())`. -/
structure ArrResult where
  onHeap : Bool
  count : Nat
  valueInit : Bool
deriving DecidableEq, Repr

def invoke_array (T : CType) (S : Nat) (ce : Bool) (n : Nat) : ArrResult :=
  if is_always_heap_allocated T S || stack_array_size T S < n || ce then
    ⟨true, n, true⟩
  else
    ⟨false, stack_array_size T S, true⟩

/-- `make_unique_small_for_overwrite<T[]>(count)` via
`invoke_for_overwrite_array`: same placement decision, but elements are
default-initialized (`new std::remove_extent_t<T>[count]` respectively
`std::uninitialized_default_construct_n`). -/
def invoke_for_overwrite_array (T : CType) (S : Nat) (ce : Bool) (n : Nat) :
    ArrResult :=
  if is_always_heap_allocated T S || stack_array_size T S < n || ce then
    ⟨true, n, false⟩
  else
    ⟨false, stack_array_size T S, false⟩

/-! ### Operation sequences

A client program manipulating a family of owners, used to compare runtime
execution with constant-evaluated execution of the same sequence. -/

/-- One client statement over a family of owner variables:
`mk i v off` is `slot[i] = make_unique_small<T>(args)` constructing a fresh
object with value `v` and base offset `off`; `mv i j` is
`slot[i] = std::move(slot[j])` (the non-template assignment, with its
self-assignment guard); `sw i j` is `swap(slot[i], slot[j])`. -/
inductive Op where
  | mk (i : Nat) (v off : Nat)
  | mv (i j : Nat)
  | sw (i j : Nat)
deriving DecidableEq, Repr

/-- Program state: the owner variables, the next fresh heap address, and the
set of live heap allocations. -/
structure St where
  slots : Nat → Owner
  next : Nat
  live : List Nat

/-- The all-empty initial state. -/
def initSt : St := ⟨fun _ => Owner.null, 0, []⟩

/-- Execute one statement. -/
def step (k : Variant) (ce : Bool) (s : St) : Op → St
  | .mk i v off =>
      let m := makeScalar k ce ⟨v, off, false⟩ s.next s.live
      let r := moveAssign k ce (s.slots i) m.1 m.2.2
      ⟨Function.update s.slots i r.1, m.2.1, (r.2.1).destroyOwner k ce r.2.2⟩
  | .mv i j =>
      if i = j then s
      else
        let r := moveAssign k ce (s.slots i) (s.slots j) s.live
        ⟨Function.update (Function.update s.slots i r.1) j r.2.1, s.next,
          r.2.2⟩
  | .sw i j =>
      let r := swapFn k ce (s.slots i) (s.slots j)
      ⟨Function.update (Function.update s.slots i r.1) j r.2, s.next,
        s.live⟩

/-- Execute a statement sequence from the initial state. -/
def run (k : Variant) (ce : Bool) (ops : List Op) : St :=
  ops.foldl (step k ce) initSt

/-! ### Reachable-state invariants -/

/-- Whether a storage is the inline (buffer) kind. -/
def isStackStg : Storage → Bool
  | .stack _ => true
  | _ => false

/-- The runtime (`ce = false`) state invariant of a single owner, per layout
variant: the primary variant's callback is set exactly when the object is
inline; the other variants' `move_` is the static no-op; the always-heap
variant never holds an inline object; and the non-polymorphic variant is
empty or inline (its factory never heap-allocates at runtime, and its
assignment paths only ever install a null pointer). -/
def Irt (k : Variant) (w : Owner) : Prop :=
  (k = .generic → w.mv = isStackStg w.stg) ∧
  (k ≠ .generic → w.mv = false) ∧
  (k = .plain → w.stg = .null ∨ isStackStg w.stg = true) ∧
  (k = .alwaysHeap → isStackStg w.stg = false)

/-- The constant-evaluation state invariant of a single owner: the buffer is
never used and the callback is never installed. -/
def Ice (w : Owner) : Prop :=
  w.mv = false ∧ isStackStg w.stg = false

theorem Irt_null (k : Variant) : Irt k Owner.null := by
  refine ⟨fun _ => rfl, fun _ => rfl, fun _ => Or.inl rfl, fun _ => rfl⟩

theorem Ice_null : Ice Owner.null := ⟨rfl, rfl⟩

/-! ## Claim theorems -/

/-- C10: for every owner `p` in any state (empty, inline, or heap-backed) and
any layout variant, the self-move-assignment `p = std::move(p)` is a no-op:
the guard `if (std::addressof(other) == this) return *this;` fires, so all of
the owner's state (data pointer, stored object, relocation callback) is
unchanged, nothing is destroyed, and the live heap allocations are
untouched. -/
theorem self_move_assign_is_noop (k : Variant) (ce : Bool) (w : Owner)
    (live : List Nat) :
    moveAssignEntry k ce true w w live = (w, w, live) := by
  simp [moveAssignEntry]

/-- C4: a type is always heap-allocated exactly when its size exceeds the
computed buffer size, or its alignment exceeds the computed buffer alignment,
or it is not nothrow-move-constructible and not abstract; for such a type the
selected layout variant is the always-heap specialization, whose
`is_stack_allocated()` returns false on every instance, in every evaluation
mode. -/
theorem always_heap_characterization (T : CType) (S : Nat) :
    (is_always_heap_allocated T S = true ↔
      (buffer_size T S < T.size ∨ buffer_alignment T S < T.align ∨
        (T.nothrowMove = false ∧ T.isAbstract = false))) ∧
    (is_always_heap_allocated T S = true →
      variantOf T S = .alwaysHeap ∧
      ∀ (ce : Bool) (w : Owner), w.isStack (variantOf T S) ce = false) := by
  constructor
  · simp [is_always_heap_allocated, Bool.or_eq_true, decide_eq_true_eq,
      Bool.and_eq_true, Bool.not_eq_true', or_assoc]
  · intro h
    have hv : variantOf T S = .alwaysHeap := by simp [variantOf, h]
    exact ⟨hv, fun ce w => by simp [hv, Owner.isStack]⟩

/-- Witness for `always_heap_characterization`: `LargePOD` with the default
budget is always heap-allocated and a heap-backed instance of it reports
`is_stack_allocated() == false`. -/
theorem always_heap_characterization_witness :
    Owner.isStack ⟨.heap 3 ⟨7, 0, false⟩, false⟩ (variantOf largePODCT 64)
      false = false :=
  (always_heap_characterization largePODCT 64).2 (by decide) |>.2 false _

/-- C9: if the owned object's constructor throws inside
`p = make_unique_small<T>(args...)`, the exception propagates, the owner `p`
is left exactly as it was, and the set of live heap allocations is unchanged
(the allocation made by a failed new-expression is released by the language
before the exception leaves the factory; the inline path allocates
nothing and the owner's fields are only assigned after construction
succeeds). -/
theorem make_ctor_throw_no_partial_state (k : Variant) (ce : Bool) (o : Obj)
    (p : Owner) (next : Nat) (live : List Nat) :
    (makeAssignF k ce false o p next live).1 = p ∧
    (makeAssignF k ce false o p next live).2.1 = true ∧
    (makeAssignF k ce false o p next live).2.2.2 = live := by
  unfold makeAssignF makeScalarF
  by_cases h : (k = Variant.alwaysHeap || ce) = true <;> simp [h]

/-- C8 counterexample: `make_unique_small<SmallPOD[]>(4)` at runtime places
the array inline but constructs `stack_array_size() = 56` elements, not the
requested 4, contradicting the claim that exactly the requested count of
elements is constructed in the inline buffer. -/
theorem array_factory_count_counterexample :
    (invoke_array smallPODArrCT 64 false 4).onHeap = false ∧
    stack_array_size smallPODArrCT 64 = 56 ∧
    (invoke_array smallPODArrCT 64 false 4).count = 56 := by decide

/-- C8 (amended): the array factory heap-allocates exactly `count` elements
when the count exceeds the inline array capacity or heap-forcing conditions
hold (always-heap type, constant evaluation); otherwise it value-constructs
(default-constructs for the for-overwrite entry point) the full inline
capacity `stack_array_size()` of elements — at least the requested count —
in the inline buffer. -/
theorem array_factory_placement (T : CType) (S : Nat) (ce : Bool) (n : Nat) :
    ((invoke_array T S ce n).onHeap = true ↔
      (is_always_heap_allocated T S = true ∨ stack_array_size T S < n ∨
        ce = true)) ∧
    ((invoke_array T S ce n).onHeap = true →
      (invoke_array T S ce n).count = n) ∧
    ((invoke_array T S ce n).onHeap = false →
      (invoke_array T S ce n).count = stack_array_size T S ∧
      n ≤ (invoke_array T S ce n).count) ∧
    (invoke_for_overwrite_array T S ce n).onHeap =
      (invoke_array T S ce n).onHeap ∧
    (invoke_for_overwrite_array T S ce n).count =
      (invoke_array T S ce n).count ∧
    (invoke_array T S ce n).valueInit = true ∧
    (invoke_for_overwrite_array T S ce n).valueInit = false := by
  unfold invoke_array invoke_for_overwrite_array
  by_cases h :
      (is_always_heap_allocated T S || decide (stack_array_size T S < n) ||
        ce) = true
  · simp only [h, if_true]
    simp only [Bool.or_eq_true, decide_eq_true_eq, or_assoc] at h
    simp [h]
  · simp only [Bool.not_eq_true] at h
    simp only [h, Bool.false_eq_true, if_false]
    simp only [Bool.or_eq_false_iff, decide_eq_false_iff_not] at h
    obtain ⟨⟨h1, h2⟩, h3⟩ := h
    refine ⟨by simp [h1, h2, h3], by simp, ?_, by simp, by simp, by simp,
      by simp⟩
    exact fun _ => ⟨by simp, Nat.le_of_not_lt h2⟩

/-- Witness for `array_factory_placement`: `SmallPOD[]` with count 4 at
runtime goes inline with 56 constructed elements. -/
theorem array_factory_placement_witness :
    (invoke_array smallPODArrCT 64 false 4).count =
      stack_array_size smallPODArrCT 64 ∧
    4 ≤ (invoke_array smallPODArrCT 64 false 4).count :=
  (array_factory_placement smallPODArrCT 64 false 4).2.2.1 (by decide)

/-- C1 counterexample: construct a `SmallDerived` (inline, primary variant)
and move-construct a new owner from it at runtime.  The target reproduces the
constructed state, but the source's `get()` is not null — it still points at
the moved-from object inside the source's own buffer, contradicting the
claim that the source is always left empty. -/
theorem move_source_not_null_counterexample :
    variantOf smallDerivedCT 64 = .generic ∧
    ((moveConstruct (variantOf smallDerivedCT 64) false
        (makeScalar (variantOf smallDerivedCT 64) false ⟨32, 0, false⟩ 0
          []).1).1).holdsObj = some ⟨32, 0, false⟩ ∧
    ((moveConstruct (variantOf smallDerivedCT 64) false
        (makeScalar (variantOf smallDerivedCT 64) false ⟨32, 0, false⟩ 0
          []).1).2).get ≠ none := by decide

/-- C1 (amended): let `x` be the owner produced at runtime by
`make_unique_small` constructing an object with value `v` and base offset
`off`, and let `y` be move-constructed (or any owner `p` move-assigned) from
`x`.  Then `y` (resp. `p`) owns exactly the constructed state, whether inline
or heap-backed; if `x` was heap-backed the source is left empty
(`x.get() == nullptr`), while if `x` was inline the source is left pointing
at the moved-from object in its own buffer. -/
theorem move_from_make (k : Variant) (v off : Nat) (p : Owner)
    (next : Nat) (live : List Nat) :
    ((moveConstruct k false
        (makeScalar k false ⟨v, off, false⟩ next live).1).1.holdsObj =
      some ⟨v, off, false⟩) ∧
    ((makeScalar k false ⟨v, off, false⟩ next live).1.isStack k false =
        false →
      (moveConstruct k false
        (makeScalar k false ⟨v, off, false⟩ next live).1).2.stg = .null) ∧
    ((makeScalar k false ⟨v, off, false⟩ next live).1.isStack k false =
        true →
      (moveConstruct k false
          (makeScalar k false ⟨v, off, false⟩ next live).1).2.stg =
        .stack (Obj.asMovedFrom ⟨v, off, false⟩)) ∧
    ((moveAssign k false p
        (makeScalar k false ⟨v, off, false⟩ next live).1 live).1.holdsObj =
      some ⟨v, off, false⟩) ∧
    ((makeScalar k false ⟨v, off, false⟩ next live).1.isStack k false =
        false →
      (moveAssign k false p
        (makeScalar k false ⟨v, off, false⟩ next live).1 live).2.1.stg =
          .null) ∧
    ((makeScalar k false ⟨v, off, false⟩ next live).1.isStack k false =
        true →
      (moveAssign k false p
          (makeScalar k false ⟨v, off, false⟩ next live).1 live).2.1.stg =
        .stack (Obj.asMovedFrom ⟨v, off, false⟩)) := by
  cases k <;>
    simp [makeScalar, moveConstruct, moveAssign, Owner.isStack,
      Owner.holdsObj, Owner.bufObj, mvFor, residue, Owner.resetFn, ptrOf,
      installPtr]

/-- Witness for `move_from_make`: the primary variant at a concrete input. -/
theorem move_from_make_witness :
    (moveConstruct .generic false
        (makeScalar .generic false ⟨5, 2, false⟩ 0 []).1).1.holdsObj =
      some ⟨5, 2, false⟩ :=
  (move_from_make .generic 5 2 Owner.null 0 []).1

/-- C3: for every layout variant and every pair of well-formed runtime owner
states — empty, inline or heap-backed in any combination, including two
inline objects of different concrete types (different values and base
sub-object offsets) — swapping twice restores both owners exactly: same
owned-object values, same data pointers (hence the same pointed-to objects
for heap-backed operands), same relocation callbacks. -/
theorem swap_swap_id (k : Variant) (a b : Owner) (ha : Irt k a)
    (hb : Irt k b) :
    swapFn k false (swapFn k false a b).1 (swapFn k false a b).2 = (a, b) := by
  obtain ⟨hga, hnga, hpa, hha⟩ := ha
  obtain ⟨hgb, hngb, hpb, hhb⟩ := hb
  obtain ⟨sa, ma⟩ := a
  obtain ⟨sb, mb⟩ := b
  cases k <;> cases sa <;> cases sb <;>
    simp_all [swapFn, Owner.isStack, Owner.bufObj, mvFor, isStackStg]

/-- Witness for `swap_swap_id`: two inline objects of different concrete
types (different values and offsets) under the primary variant. -/
theorem swap_swap_id_witness :
    swapFn .generic false
        (swapFn .generic false ⟨.stack ⟨1, 0, false⟩, true⟩
          ⟨.stack ⟨2, 8, false⟩, true⟩).1
        (swapFn .generic false ⟨.stack ⟨1, 0, false⟩, true⟩
          ⟨.stack ⟨2, 8, false⟩, true⟩).2 =
      (⟨.stack ⟨1, 0, false⟩, true⟩, ⟨.stack ⟨2, 8, false⟩, true⟩) :=
  swap_swap_id .generic _ _ (by constructor <;> simp [isStackStg])
    (by constructor <;> simp [isStackStg])

/-- A type that is not always heap-allocated fits the buffer in both size and
alignment. -/
theorem not_always_heap (T : CType) (S : Nat)
    (h : is_always_heap_allocated T S = false) :
    T.size ≤ buffer_size T S ∧ T.align ≤ buffer_alignment T S := by
  unfold is_always_heap_allocated at h
  simp only [Bool.or_eq_false_iff, decide_eq_false_iff_not, Nat.not_lt] at h
  exact ⟨h.1.1, h.1.2⟩

theorem baseCT_wf : baseCT.WF := by
  constructor
  · decide
  · exact ⟨3, by decide, rfl⟩
  · decide
  · intro _; rfl
  · intro _; rfl
  · intro h; exact nomatch h

theorem smallPODArrCT_wf : smallPODArrCT.WF := by
  constructor
  · decide
  · exact ⟨0, by decide, rfl⟩
  · decide
  · intro h; exact nomatch h
  · intro h; exact nomatch h
  · intro _; exact ⟨rfl, rfl, rfl⟩

/-- C5: the inline buffer capacity follows the claimed formulas.  For
non-array types, `detail::buffer_size` is
`Size - sizeof(pointer) - (sizeof(move_fn) when there is no virtual
relocation hook)` when the type has a destructible polymorphic interface and
`min(sizeof(T), Size - sizeof(pointer))` otherwise, and coincides with the
public `stack_buffer_size()` whenever the type is not always heap-allocated.
For array types, the usable capacity `stack_buffer_size()` is the byte budget
rounded down to a multiple of the element size and the usable element count
is capacity divided by element size. -/
theorem buffer_capacity_formulas (T : CType) (S : Nat) (hT : T.WF) :
    (T.isArray = false →
      buffer_size T S =
        if T.hasVirtualDestructor = true then
          S - ptrSize - (if T.hasVirtualMove = true then 0 else ptrSize)
        else min T.size (S - ptrSize)) ∧
    (T.isArray = false → is_always_heap_allocated T S = false →
      stack_buffer_size T S = buffer_size T S) ∧
    (T.isArray = true →
      stack_array_size T S = stack_buffer_size T S / T.size ∧
      T.size ∣ stack_buffer_size T S ∧
      (is_always_heap_allocated T S = false →
        stack_buffer_size T S = (S - ptrSize) / T.size * T.size ∧
        stack_array_size T S = (S - ptrSize) / T.size)) := by
  refine ⟨?_, ?_, ?_⟩
  · intro harr
    unfold buffer_size
    by_cases hS : S = ptrSize
    · subst hS
      cases hvd : T.hasVirtualDestructor <;>
        cases hvm : T.hasVirtualMove <;>
        simp [harr, ptrSize]
    · simp [harr, hS]
  · intro harr hah
    obtain ⟨hsz, _⟩ := not_always_heap T S hah
    have hv' : variantOf T S =
        if !T.isPolymorphic then .plain
        else if T.hasVirtualMove then .virt else .generic := by
      unfold variantOf
      rw [hah]
      simp [harr]
    by_cases hp : T.isPolymorphic = true
    · unfold stack_buffer_size
      rw [hv']
      by_cases hvm : T.hasVirtualMove = true <;> simp [hp, hvm]
    · have hp' : T.isPolymorphic = false := by
        simpa using hp
      have hvd : T.hasVirtualDestructor = false := by
        cases hvd : T.hasVirtualDestructor
        · rfl
        · exact absurd (hT.hvd_poly hvd) (by simp [hp'])
      have hS : ¬(S = ptrSize) := by
        intro hS
        rw [buffer_size, if_pos hS] at hsz
        exact hT.size_pos.ne' (Nat.le_zero.mp hsz)
      have hbs : buffer_size T S = min T.size (S - ptrSize) := by
        unfold buffer_size
        simp [hS, harr, hvd]
      unfold stack_buffer_size
      rw [hv']
      simp only [hp', Bool.not_false, if_true]
      rw [hbs]
      rw [hbs] at hsz
      exact (Nat.min_eq_left (le_trans hsz (Nat.min_le_right _ _))).symm
  · intro harr
    obtain ⟨hp, hvd, hvm⟩ := hT.array_not_poly harr
    have hv' : variantOf T S =
        if is_always_heap_allocated T S then .alwaysHeap else .arr := by
      unfold variantOf
      by_cases hah : is_always_heap_allocated T S = true <;>
        simp [hah, hp, hvm, harr]
    by_cases hah : is_always_heap_allocated T S = true
    · have h0 : stack_buffer_size T S = 0 := by
        unfold stack_buffer_size
        rw [hv', if_pos hah]
      refine ⟨?_, ?_, ?_⟩
      · unfold stack_array_size; rfl
      · rw [h0]; exact dvd_zero _
      · intro h; rw [h] at hah; exact nomatch hah
    · have hah' : is_always_heap_allocated T S = false := by
        simpa using hah
      obtain ⟨hsz, _⟩ := not_always_heap T S hah'
      have hS : ¬(S = ptrSize) := by
        intro hS
        rw [buffer_size, if_pos hS] at hsz
        exact hT.size_pos.ne' (Nat.le_zero.mp hsz)
      have hbs : buffer_size T S = S - ptrSize := by
        unfold buffer_size
        simp [hS, harr]
      have harrv : stack_buffer_size T S = (S - ptrSize) / T.size * T.size := by
        unfold stack_buffer_size
        rw [hv', if_neg (by simp [hah']), hbs]
      refine ⟨?_, ?_, fun _ => ⟨harrv, ?_⟩⟩
      · unfold stack_array_size; rfl
      · rw [harrv]; exact dvd_mul_left _ _
      · unfold stack_array_size
        rw [harrv]
        exact Nat.mul_div_cancel _ hT.size_pos

/-- Witness for `buffer_capacity_formulas`: the polymorphic interface type of
the test suite at the default budget, and the byte-array type. -/
theorem buffer_capacity_formulas_witness :
    buffer_size baseCT 64 =
      (if baseCT.hasVirtualDestructor = true then
        64 - ptrSize - (if baseCT.hasVirtualMove = true then 0 else ptrSize)
      else min baseCT.size (64 - ptrSize)) ∧
    stack_array_size smallPODArrCT 64 = stack_buffer_size smallPODArrCT 64 / smallPODArrCT.size :=
  ⟨(buffer_capacity_formulas baseCT 64 baseCT_wf).1 rfl,
   ((buffer_capacity_formulas smallPODArrCT 64 smallPODArrCT_wf).2.2 rfl).1⟩

/-! ### Arithmetic facts about the layout computation -/

theorem max_pow2_factor_two_pow {k : Nat} (hk : k < 64) :
    max_pow2_factor (2 ^ k) = 2 ^ k := by
  have hle : (2 : Nat) ^ k ≤ 2 ^ 64 :=
    Nat.pow_le_pow_right (by norm_num) (le_of_lt hk)
  have hsub : (2 : Nat) ^ 64 - 2 ^ k = 2 ^ k * (2 ^ (64 - k) - 1) := by
    have hmul : (2 : Nat) ^ k * 2 ^ (64 - k) = 2 ^ 64 := by
      rw [← pow_add]
      congr 1
      omega
    calc (2 : Nat) ^ 64 - 2 ^ k
        = 2 ^ k * 2 ^ (64 - k) - 2 ^ k * 1 := by rw [hmul, Nat.mul_one]
      _ = 2 ^ k * (2 ^ (64 - k) - 1) := (Nat.mul_sub _ _ _).symm
  unfold max_pow2_factor
  rw [hsub]
  apply Nat.eq_of_testBit_eq
  intro i
  rw [Nat.testBit_and]
  by_cases hik : i = k
  · subst hik
    rw [Nat.testBit_two_pow_self]
    rw [Nat.testBit_mul_pow_two]
    simp only [Nat.le_refl, decide_True, Nat.sub_self, Bool.true_and]
    rw [Nat.testBit_two_pow_sub_one]
    simp
    omega
  · rw [Nat.testBit_two_pow_of_ne (fun h => hik h.symm)]
    simp

theorem min_two_pow (a b : Nat) : min ((2 : Nat) ^ a) (2 ^ b) = 2 ^ min a b := by
  rcases Nat.le_total a b with h | h
  · rw [Nat.min_eq_left (Nat.pow_le_pow_right (by norm_num) h),
      Nat.min_eq_left h]
  · rw [Nat.min_eq_right (Nat.pow_le_pow_right (by norm_num) h),
      Nat.min_eq_right h]

theorem max_two_pow (a b : Nat) : max ((2 : Nat) ^ a) (2 ^ b) = 2 ^ max a b := by
  rcases Nat.le_total a b with h | h
  · rw [Nat.max_eq_right (Nat.pow_le_pow_right (by norm_num) h),
      Nat.max_eq_right h]
  · rw [Nat.max_eq_left (Nat.pow_le_pow_right (by norm_num) h),
      Nat.max_eq_left h]

theorem alignUp_le {n m d : Nat} (hd : 0 < d) (hn : n ≤ m) (hdvd : d ∣ m) :
    alignUp n d ≤ m := by
  obtain ⟨q, rfl⟩ := hdvd
  unfold alignUp
  rw [if_neg hd.ne']
  have h1 : (n + d - 1) / d ≤ q := by
    rw [Nat.div_le_iff_le_mul_add_pred hd]
    calc n + d - 1 ≤ d * q + d - 1 := by omega
      _ ≤ d * q + (d - 1) := by omega
  calc (n + d - 1) / d * d ≤ q * d := Nat.mul_le_mul_right d h1
    _ = d * q := Nat.mul_comm q d

theorem alignUp_eq_self {n d : Nat} (hd : 0 < d) (hdvd : d ∣ n) :
    alignUp n d = n := by
  obtain ⟨q, rfl⟩ := hdvd
  unfold alignUp
  rw [if_neg hd.ne']
  have h1 : d * q + d - 1 = d - 1 + q * d := by
    rw [Nat.mul_comm]
    omega
  rw [h1, Nat.add_mul_div_right _ _ hd, Nat.div_eq_of_lt (by omega)]
  rw [Nat.zero_add, Nat.mul_comm]

/-- A type whose alignment fits the computed buffer alignment has
power-of-two alignment dividing a power-of-two budget. -/
theorem align_dvd_of_le_buffer_alignment (T : CType) (S k a : Nat)
    (hk : k < 64) (ha64 : a < 64) (hS : S = 2 ^ k) (hA : T.align = 2 ^ a)
    (hal : T.align ≤ buffer_alignment T S) : T.align ∣ S := by
  subst hS
  rw [hA] at hal ⊢
  have hale : a ≤ k := by
    unfold buffer_alignment at hal
    by_cases hvd : T.hasVirtualDestructor = true
    · rw [if_pos hvd, max_pow2_factor_two_pow hk] at hal
      exact (Nat.pow_le_pow_iff_right (by norm_num)).mp hal
    · rw [if_neg hvd, hA, min_two_pow,
        max_pow2_factor_two_pow (show min a k < 64 by omega)] at hal
      have := (Nat.pow_le_pow_iff_right
        (show (1 : Nat) < 2 by norm_num)).mp hal
      omega
  exact pow_dvd_pow 2 hale

/-- A 16-byte type over-aligned to 16 (`struct alignas(16) X
{ unsigned char x[16]; }`), nothrow-move-constructible. -/
def alignedPODCT : CType :=
  ⟨16, 16, false, false, false, true, false, false⟩

theorem alignedPODCT_wf : alignedPODCT.WF := by
  constructor
  · decide
  · exact ⟨4, by decide, rfl⟩
  · decide
  · intro h; exact nomatch h
  · intro h; exact nomatch h
  · intro h; exact nomatch h

/-- A polymorphic type without a virtual destructor: one vtable pointer plus
48 bytes of data (`struct P { virtual void f(); unsigned char pad[48]; };`,
size 56, alignment 8), nothrow-move-constructible. -/
def polyNoVdtorCT : CType :=
  ⟨56, 8, true, false, false, true, false, false⟩

theorem polyNoVdtorCT_wf : polyNoVdtorCT.WF := by
  constructor
  · decide
  · exact ⟨3, by decide, rfl⟩
  · decide
  · intro h; exact nomatch h
  · intro h; exact nomatch h
  · intro h; exact nomatch h

/-- C2 counterexample: the claimed unconditional bound `sizeof <= Size`
fails on two well-formed inputs.  (1) With the legal budget `Size = 24` (a
positive multiple of the pointer size) and a 16-byte type aligned to 16, the
type is not always heap-allocated, yet
`sizeof(small_unique_ptr<T, 24>) = 32 > 24`: alignment padding pushes the
object size beyond a non-power-of-two budget.  (2) Even at the power-of-two
default budget 64, a 56-byte polymorphic type without a virtual destructor
is inline-capable (`buffer_size` uses the `min(sizeof(T), Size - 8)` branch,
since the branch tests `has_virtual_destructor`, not `is_polymorphic`) but
selects the primary layout with a `data_` pointer and a `move_` callback
after the 56-byte buffer: `sizeof(small_unique_ptr<P, 64>) = 72 > 64`. -/
theorem sizeof_bound_counterexample :
    (alignedPODCT.WF ∧
      ptrSize ∣ 24 ∧ ptrSize ≤ 24 ∧
      is_always_heap_allocated alignedPODCT 24 = false ∧
      sizeofSmallUniquePtr alignedPODCT 24 = 32) ∧
    (polyNoVdtorCT.WF ∧
      is_always_heap_allocated polyNoVdtorCT 64 = false ∧
      sizeofSmallUniquePtr polyNoVdtorCT 64 = 72) :=
  ⟨⟨alignedPODCT_wf, by decide, by decide, by decide, by decide⟩,
   ⟨polyNoVdtorCT_wf, by decide, by decide⟩⟩

/-- C2 (amended): for power-of-two budgets, and owned types that are
polymorphic exactly when they have a virtual destructor,
`sizeof(small_unique_ptr<T, Size>) <= Size`; it equals `sizeof(pointer)`
when `T` is always heap-allocated, and it equals `Size` whenever `T` has a
destructible polymorphic interface and is not always heap-allocated (array
types and small non-polymorphic types stay at or below `Size`).  Both
restrictions are forced by exhibited counterexamples: a non-power-of-two
budget is exceeded by alignment padding, and a polymorphic type without a
virtual destructor exceeds even the power-of-two default budget. -/
theorem sizeof_bound (T : CType) (S k : Nat) (hT : T.WF) (hk : k < 64)
    (hS : S = 2 ^ k) (h8 : ptrSize ≤ S)
    (hpd : T.isPolymorphic = T.hasVirtualDestructor) :
    sizeofSmallUniquePtr T S ≤ S ∧
    (is_always_heap_allocated T S = true →
      sizeofSmallUniquePtr T S = ptrSize) ∧
    (T.hasVirtualDestructor = true → is_always_heap_allocated T S = false →
      sizeofSmallUniquePtr T S = S) := by
  have hk3 : 3 ≤ k := by
    by_contra hlt
    push_neg at hlt
    have h22 : (2 : Nat) ^ k ≤ 2 ^ 2 :=
      Nat.pow_le_pow_right (by norm_num) (by omega)
    rw [hS] at h8
    simp only [ptrSize] at h8
    norm_num at h22
    omega
  have h8S : (8 : Nat) ∣ S := by
    rw [hS]
    calc (8 : Nat) = 2 ^ 3 := by norm_num
      _ ∣ 2 ^ k := pow_dvd_pow 2 hk3
  have h8pos : (0 : Nat) < ptrSize := by norm_num [ptrSize]
  by_cases hah : is_always_heap_allocated T S = true
  · have hv : variantOf T S = .alwaysHeap := by simp [variantOf, hah]
    have hsz : sizeofSmallUniquePtr T S = ptrSize := by
      unfold sizeofSmallUniquePtr
      rw [hv]
    refine ⟨hsz ▸ h8, fun _ => hsz, fun _ hne => ?_⟩
    rw [hah] at hne
    exact nomatch hne
  · have hah' : is_always_heap_allocated T S = false := by simpa using hah
    obtain ⟨hszle, halle⟩ := not_always_heap T S hah'
    obtain ⟨a, ha64, hA⟩ := hT.align_pow
    have hadvd : T.align ∣ S :=
      align_dvd_of_le_buffer_alignment T S k a hk ha64 hS hA halle
    have hSpos : 0 < S := by omega
    have hS8 : ¬(S = ptrSize) := by
      intro h
      have h0 : buffer_size T S = 0 := by unfold buffer_size; rw [if_pos h]
      rw [h0] at hszle
      exact hT.size_pos.ne' (Nat.le_zero.mp hszle)
    have hS16 : 16 ≤ S := by
      have hk4 : 4 ≤ k := by
        rcases Nat.lt_or_ge k 4 with hlt | hge
        · exfalso
          have hk3' : k = 3 := by omega
          rw [hS, hk3'] at hS8
          exact hS8 (by norm_num [ptrSize])
        · exact hge
      calc (16 : Nat) = 2 ^ 4 := by norm_num
        _ ≤ 2 ^ k := Nat.pow_le_pow_right (by norm_num) hk4
        _ = S := hS.symm
    have halign8 : max T.align ptrSize ∣ S := by
      rw [hA, ptrSize, show (8 : Nat) = 2 ^ 3 by norm_num, max_two_pow, hS]
      have hak : a ≤ k := by
        rw [hS, hA] at hadvd
        exact (Nat.pow_dvd_pow_iff_le_right (by norm_num)).mp hadvd
      exact pow_dvd_pow 2 (by omega)
    have halign8pos : 0 < max T.align ptrSize :=
      lt_of_lt_of_le h8pos (le_max_right _ _)
    have hS8' : ¬(S = 8) := by simpa [ptrSize] using hS8
    have hdvd8 : ptrSize ∣ S - 8 := Nat.dvd_sub' h8S (by norm_num [ptrSize])
    have hdvd16 : ptrSize ∣ S - 16 := Nat.dvd_sub' h8S (by norm_num [ptrSize])
    -- for a destructible polymorphic interface the size is exactly S
    have hseq : T.hasVirtualDestructor = true → sizeofSmallUniquePtr T S = S := by
      intro hvd
      have harr : T.isArray = false := by
        cases harr : T.isArray
        · rfl
        · exact absurd hvd (by simp [(hT.array_not_poly harr).2.1])
      have hpoly : T.isPolymorphic = true := hT.hvd_poly hvd
      have hba : buffer_alignment T S = S := by
        unfold buffer_alignment
        rw [if_pos hvd, hS, max_pow2_factor_two_pow hk]
      have hmaxS : max (buffer_alignment T S) ptrSize = S := by
        rw [hba]
        exact Nat.max_eq_left (le_trans (by norm_num [ptrSize]) h8)
      by_cases hvm : T.hasVirtualMove = true
      · have hv : variantOf T S = .virt := by
          simp [variantOf, hah', hpoly, hvm]
        have hbs : buffer_size T S = S - 8 := by
          unfold buffer_size
          simp [hS8', harr, hvd, hvm, ptrSize]
        have hsz0 : sizeofSmallUniquePtr T S =
            alignUp (alignUp (buffer_size T S) ptrSize + ptrSize)
              (max (buffer_alignment T S) ptrSize) := by
          unfold sizeofSmallUniquePtr
          rw [hv]
        rw [hsz0, hmaxS, hbs, alignUp_eq_self h8pos hdvd8,
          show S - 8 + ptrSize = S by simp only [ptrSize]; omega]
        exact alignUp_eq_self hSpos dvd_rfl
      · have hv : variantOf T S = .generic := by
          simp [variantOf, hah', hpoly, hvm, harr]
        have hbs : buffer_size T S = S - 16 := by
          unfold buffer_size
          simp [hS8', harr, hvd, hvm, ptrSize]
          omega
        have hsz0 : sizeofSmallUniquePtr T S =
            alignUp (alignUp (buffer_size T S) ptrSize + 2 * ptrSize)
              (max (buffer_alignment T S) ptrSize) := by
          unfold sizeofSmallUniquePtr
          rw [hv]
        rw [hsz0, hmaxS, hbs, alignUp_eq_self h8pos hdvd16,
          show S - 16 + 2 * ptrSize = S by simp only [ptrSize]; omega]
        exact alignUp_eq_self hSpos dvd_rfl
    refine ⟨?_, fun h => absurd h (by simp [hah']), fun hvd _ => hseq hvd⟩
    by_cases hvd : T.hasVirtualDestructor = true
    · exact le_of_eq (hseq hvd)
    · -- no virtual destructor: non-polymorphic or array, padded below S
      have hpoly : T.isPolymorphic = false := by
        rw [hpd]
        simpa using hvd
      have hvm : T.hasVirtualMove = false := by
        cases hvm : T.hasVirtualMove
        · rfl
        · exact absurd (hT.hvm_poly hvm) (by simp [hpoly])
      by_cases harr : T.isArray = true
      · have hv : variantOf T S = .arr := by
          simp [variantOf, hah', hpoly, hvm, harr]
        have hbs : buffer_size T S = S - 8 := by
          unfold buffer_size
          simp [hS8', harr, ptrSize]
        have hsz0 : sizeofSmallUniquePtr T S =
            alignUp (alignUp (buffer_size T S / T.size * T.size) ptrSize +
              ptrSize) (max T.align ptrSize) := by
          unfold sizeofSmallUniquePtr
          rw [hv]
        rw [hsz0, hbs]
        apply alignUp_le halign8pos _ halign8
        have hin : alignUp ((S - 8) / T.size * T.size) ptrSize ≤ S - 8 :=
          alignUp_le h8pos (Nat.div_mul_le_self _ _) hdvd8
        simp only [ptrSize] at hin ⊢
        omega
      · have harr' : T.isArray = false := by simpa using harr
        have hv : variantOf T S = .plain := by
          simp [variantOf, hah', hpoly, harr']
        have hbs : buffer_size T S = min T.size (S - 8) := by
          unfold buffer_size
          have hvd' : T.hasVirtualDestructor = false := by simpa using hvd
          simp [hS8', harr', hvd', ptrSize]
        have hsz8 : T.size ≤ S - 8 := by
          rw [hbs] at hszle
          exact le_trans hszle (Nat.min_le_right _ _)
        have hsz0 : sizeofSmallUniquePtr T S =
            alignUp (alignUp T.size ptrSize + ptrSize)
              (max T.align ptrSize) := by
          unfold sizeofSmallUniquePtr
          rw [hv]
        rw [hsz0]
        apply alignUp_le halign8pos _ halign8
        have hin : alignUp T.size ptrSize ≤ S - 8 :=
          alignUp_le h8pos hsz8 hdvd8
        simp only [ptrSize] at hin ⊢
        omega

/-- Witness for `sizeof_bound`: the polymorphic interface type at the default
64-byte budget. -/
theorem sizeof_bound_witness :
    sizeofSmallUniquePtr baseCT 64 ≤ 64 :=
  (sizeof_bound baseCT 64 6 baseCT_wf (by norm_num) (by norm_num)
    (by norm_num [ptrSize]) rfl).1

/-! ### Runtime versus constant evaluation (C7) -/

/-- Relation between one owner variable after the runtime execution and
after the constant-evaluated execution of the same statements: either the
constant-evaluated owner is empty while the runtime owner is empty or points
only at a moved-from residue, or both own an object with the same live
state. -/
def slotRel (wr wc : Owner) : Prop :=
  (wc.stg = .null ∧
    (wr.stg = .null ∨ ∃ o, wr.holdsObj = some o ∧ o.mf = true)) ∨
  (∃ o, o.mf = false ∧ wc.holdsObj = some o ∧ wr.holdsObj = some o)

/-- Combined per-variable invariant of the runtime/constant-evaluation
simulation. -/
def SlotInv (k : Variant) (wr wc : Owner) : Prop :=
  Irt k wr ∧ Ice wc ∧ slotRel wr wc

/-- State relation: every owner variable is related. -/
def StRel (k : Variant) (sr sc : St) : Prop :=
  ∀ i, SlotInv k (sr.slots i) (sc.slots i)

theorem slotRel_null : slotRel Owner.null Owner.null :=
  Or.inl ⟨rfl, Or.inl rfl⟩

theorem SlotInv_null (k : Variant) : SlotInv k Owner.null Owner.null :=
  ⟨Irt_null k, Ice_null, slotRel_null⟩

/-- The factory produces related owners in the two modes. -/
theorem makeScalar_sim (k : Variant) (v off nr nc : Nat)
    (lr lc : List Nat) :
    SlotInv k (makeScalar k false ⟨v, off, false⟩ nr lr).1
      (makeScalar k true ⟨v, off, false⟩ nc lc).1 := by
  unfold SlotInv Irt Ice slotRel
  cases k <;>
    simp [makeScalar, mvFor, Owner.holdsObj, isStackStg]

/-- At constant evaluation no owner is ever stack-allocated. -/
theorem isStack_ce_false (k : Variant) (w : Owner) (h : Ice w) :
    w.isStack k true = false := by
  cases k <;> simp [Owner.isStack, h.1]

/-- A stack-allocated well-formed runtime owner holds an inline object. -/
theorem isStack_shape (k : Variant) (w : Owner) (hI : Irt k w)
    (hs : w.isStack k false = true) : ∃ o, w.stg = .stack o := by
  obtain ⟨hg, hng, hp, hh⟩ := hI
  obtain ⟨s, m⟩ := w
  cases k <;> cases s <;> simp_all [Owner.isStack, isStackStg]

/-- A non-stack-allocated well-formed runtime owner is empty or heap-backed. -/
theorem notStack_shape (k : Variant) (w : Owner) (hI : Irt k w)
    (hs : w.isStack k false = false) :
    w.stg = .null ∨ ∃ a o, w.stg = .heap a o := by
  obtain ⟨hg, hng, hp, hh⟩ := hI
  obtain ⟨s, m⟩ := w
  cases k <;> cases s <;> simp_all [Owner.isStack, isStackStg]

theorem isStackStg_installPtr (p : Option (Nat × Obj)) :
    isStackStg (installPtr p) = false := by
  cases p <;> rfl

/-- Move assignment at constant evaluation always takes the pointer-transfer
path. -/
theorem moveAssign_ce (k : Variant) (tc oc : Owner) (lc : List Nat)
    (htc : Ice tc) (hoc : Ice oc) :
    (moveAssign k true tc oc lc).1 = ⟨installPtr (ptrOf oc.stg), tc.mv⟩ ∧
    (moveAssign k true tc oc lc).2.1 = ⟨.null, oc.mv⟩ := by
  unfold moveAssign Owner.resetFn
  rw [isStack_ce_false k oc hoc]
  simp [isStack_ce_false k tc htc]

/-- Move assignment from a stack-allocated runtime source relocates the
object and leaves the source pointing at the residue. -/
theorem moveAssign_rt_stack (k : Variant) (tr os : Owner) (lr : List Nat)
    (hs : os.isStack k false = true) :
    (moveAssign k false tr os lr).1 =
      ⟨.stack os.bufObj, mvFor k os.mv⟩ ∧
    (moveAssign k false tr os lr).2.1 = ⟨residue os.stg, os.mv⟩ := by
  unfold moveAssign
  simp [hs]

/-- Move assignment from a non-stack runtime source transfers the pointer
through `reset` and nulls the source. -/
theorem moveAssign_rt_notStack (k : Variant) (tr os : Owner) (lr : List Nat)
    (hs : os.isStack k false = false) :
    (moveAssign k false tr os lr).1 =
      ⟨installPtr (ptrOf os.stg),
        if tr.isStack k false then false else tr.mv⟩ ∧
    (moveAssign k false tr os lr).2.1 = ⟨.null, os.mv⟩ := by
  unfold moveAssign Owner.resetFn
  by_cases h : tr.isStack k false = true <;> simp [hs, h]

set_option maxHeartbeats 3200000 in
/-- Move assignment preserves the simulation relation on both the target and
the source. -/
theorem moveAssign_sim (k : Variant) (tr tc os oc : Owner)
    (lr lc : List Nat) (ht : SlotInv k tr tc) (ho : SlotInv k os oc) :
    SlotInv k (moveAssign k false tr os lr).1
      (moveAssign k true tc oc lc).1 ∧
    SlotInv k (moveAssign k false tr os lr).2.1
      (moveAssign k true tc oc lc).2.1 := by
  obtain ⟨hti, htc, htr⟩ := ht
  obtain ⟨hoi, hoc, hor⟩ := ho
  obtain ⟨hce1, hce2⟩ := moveAssign_ce k tc oc lc htc hoc
  rw [hce1, hce2]
  by_cases hs : os.isStack k false = true
  · obtain ⟨hrt1, hrt2⟩ := moveAssign_rt_stack k tr os lr hs
    rw [hrt1, hrt2]
    obtain ⟨hog, hong, hop, hoh⟩ := hoi
    obtain ⟨htg, htng, htp, hth⟩ := hti
    obtain ⟨stc, mtc⟩ := tc
    obtain ⟨soc, moc⟩ := oc
    obtain ⟨sos, mos⟩ := os
    unfold SlotInv Irt Ice slotRel at *
    cases k <;> cases sos <;> cases soc <;>
      simp_all [mvFor, residue, ptrOf, installPtr, Owner.holdsObj,
        Owner.bufObj, isStackStg, Obj.asMovedFrom, Owner.isStack]
  · have hs' : os.isStack k false = false := by simpa using hs
    obtain ⟨hrt1, hrt2⟩ := moveAssign_rt_notStack k tr os lr hs'
    rw [hrt1, hrt2]
    obtain ⟨hog, hong, hop, hoh⟩ := hoi
    obtain ⟨htg, htng, htp, hth⟩ := hti
    obtain ⟨stc, mtc⟩ := tc
    obtain ⟨soc, moc⟩ := oc
    obtain ⟨sos, mos⟩ := os
    obtain ⟨str, mtr⟩ := tr
    unfold SlotInv Irt Ice slotRel at *
    cases k <;> cases sos <;> cases soc <;> cases str <;>
      simp_all [mvFor, residue, ptrOf, installPtr, Owner.holdsObj,
        Owner.bufObj, isStackStg, Obj.asMovedFrom, Owner.isStack]

/-- Swap at constant evaluation always takes the pointer-swap path. -/
theorem swapFn_ce (k : Variant) (ac bc : Owner) (hac : Ice ac)
    (hbc : Ice bc) :
    swapFn k true ac bc = (⟨bc.stg, ac.mv⟩, ⟨ac.stg, bc.mv⟩) := by
  unfold swapFn
  by_cases hk : k = Variant.alwaysHeap
  · simp [hk]
  · simp [hk, isStack_ce_false k ac hac, isStack_ce_false k bc hbc]

/-- Swap when neither runtime operand is stack-allocated: pointer swap. -/
theorem swapFn_rt_hh (k : Variant) (ar br : Owner)
    (ha : ar.isStack k false = false) (hb : br.isStack k false = false) :
    swapFn k false ar br = (⟨br.stg, ar.mv⟩, ⟨ar.stg, br.mv⟩) := by
  unfold swapFn
  by_cases hk : k = Variant.alwaysHeap <;> simp [hk, ha, hb]

/-- Swap when both runtime operands are stack-allocated. -/
theorem swapFn_rt_ss (k : Variant) (ar br : Owner)
    (hk : ¬(k = Variant.alwaysHeap)) (ha : ar.isStack k false = true)
    (hb : br.isStack k false = true) :
    swapFn k false ar br =
      (⟨.stack br.bufObj, mvFor k br.mv⟩,
       ⟨.stack ar.bufObj, mvFor k ar.mv⟩) := by
  unfold swapFn
  simp [hk, ha, hb]

/-- Swap of a non-stack left operand with a stack-allocated right operand. -/
theorem swapFn_rt_hs (k : Variant) (ar br : Owner)
    (hk : ¬(k = Variant.alwaysHeap)) (ha : ar.isStack k false = false)
    (hb : br.isStack k false = true) :
    swapFn k false ar br =
      (⟨.stack br.bufObj, mvFor k br.mv⟩, ⟨ar.stg, false⟩) := by
  unfold swapFn
  simp [hk, ha, hb]

/-- Swap of a stack-allocated left operand with a non-stack right operand. -/
theorem swapFn_rt_sh (k : Variant) (ar br : Owner)
    (hk : ¬(k = Variant.alwaysHeap)) (ha : ar.isStack k false = true)
    (hb : br.isStack k false = false) :
    swapFn k false ar br =
      (⟨br.stg, false⟩, ⟨.stack ar.bufObj, mvFor k ar.mv⟩) := by
  unfold swapFn
  simp [hk, ha, hb]

/-- The always-heap variant is never stack-allocated at runtime either. -/
theorem isStack_alwaysHeap (w : Owner) (ce : Bool) :
    w.isStack .alwaysHeap ce = false := rfl

set_option maxHeartbeats 3200000 in
/-- Swap preserves the simulation relation on both operands. -/
theorem swapFn_sim (k : Variant) (ar ac br bc : Owner)
    (ha : SlotInv k ar ac) (hb : SlotInv k br bc) :
    SlotInv k (swapFn k false ar br).1 (swapFn k true ac bc).1 ∧
    SlotInv k (swapFn k false ar br).2 (swapFn k true ac bc).2 := by
  obtain ⟨hai, hac, har⟩ := ha
  obtain ⟨hbi, hbc, hbr⟩ := hb
  rw [swapFn_ce k ac bc hac hbc]
  by_cases hk : k = Variant.alwaysHeap
  · subst hk
    rw [swapFn_rt_hh _ _ _ (isStack_alwaysHeap ar false)
      (isStack_alwaysHeap br false)]
    obtain ⟨hag, hang, hap, hah⟩ := hai
    obtain ⟨hbg, hbng, hbp, hbh⟩ := hbi
    obtain ⟨sar, mar⟩ := ar
    obtain ⟨sac, mac⟩ := ac
    obtain ⟨sbr, mbr⟩ := br
    obtain ⟨sbc, mbc⟩ := bc
    unfold SlotInv Irt Ice slotRel at *
    cases sar <;> cases sbr <;> cases sac <;> cases sbc <;>
      simp_all [Owner.holdsObj, isStackStg]
  · by_cases hsa : ar.isStack k false = true <;>
      by_cases hsb : br.isStack k false = true
    · rw [swapFn_rt_ss k ar br hk hsa hsb]
      obtain ⟨oa, hoa⟩ := isStack_shape k ar hai hsa
      obtain ⟨ob, hob⟩ := isStack_shape k br hbi hsb
      obtain ⟨hag, hang, hap, hah⟩ := hai
      obtain ⟨hbg, hbng, hbp, hbh⟩ := hbi
      obtain ⟨sar, mar⟩ := ar
      obtain ⟨sac, mac⟩ := ac
      obtain ⟨sbr, mbr⟩ := br
      obtain ⟨sbc, mbc⟩ := bc
      unfold SlotInv Irt Ice slotRel at *
      cases k <;> cases sac <;> cases sbc <;>
        simp_all [Owner.holdsObj, Owner.bufObj, isStackStg, mvFor,
          Owner.isStack]
    · have hsb' : br.isStack k false = false := by simpa using hsb
      rw [swapFn_rt_sh k ar br hk hsa hsb']
      obtain ⟨oa, hoa⟩ := isStack_shape k ar hai hsa
      obtain ⟨hag, hang, hap, hah⟩ := hai
      obtain ⟨hbg, hbng, hbp, hbh⟩ := hbi
      obtain ⟨sar, mar⟩ := ar
      obtain ⟨sac, mac⟩ := ac
      obtain ⟨sbr, mbr⟩ := br
      obtain ⟨sbc, mbc⟩ := bc
      unfold SlotInv Irt Ice slotRel at *
      cases k <;> cases sbr <;> cases sac <;> cases sbc <;>
        simp_all [Owner.holdsObj, Owner.bufObj, isStackStg, mvFor,
          Owner.isStack]
    · have hsa' : ar.isStack k false = false := by simpa using hsa
      rw [swapFn_rt_hs k ar br hk hsa' hsb]
      obtain ⟨ob, hob⟩ := isStack_shape k br hbi hsb
      obtain ⟨hag, hang, hap, hah⟩ := hai
      obtain ⟨hbg, hbng, hbp, hbh⟩ := hbi
      obtain ⟨sar, mar⟩ := ar
      obtain ⟨sac, mac⟩ := ac
      obtain ⟨sbr, mbr⟩ := br
      obtain ⟨sbc, mbc⟩ := bc
      unfold SlotInv Irt Ice slotRel at *
      cases k <;> cases sar <;> cases sac <;> cases sbc <;>
        simp_all [Owner.holdsObj, Owner.bufObj, isStackStg, mvFor,
          Owner.isStack]
    · have hsa' : ar.isStack k false = false := by simpa using hsa
      have hsb' : br.isStack k false = false := by simpa using hsb
      rw [swapFn_rt_hh k ar br hsa' hsb']
      obtain ⟨hag, hang, hap, hah⟩ := hai
      obtain ⟨hbg, hbng, hbp, hbh⟩ := hbi
      obtain ⟨sar, mar⟩ := ar
      obtain ⟨sac, mac⟩ := ac
      obtain ⟨sbr, mbr⟩ := br
      obtain ⟨sbc, mbc⟩ := bc
      unfold SlotInv Irt Ice slotRel at *
      cases k <;> cases sar <;> cases sbr <;> cases sac <;> cases sbc <;>
        simp_all [Owner.holdsObj, isStackStg, Owner.isStack]

/-- One statement preserves the simulation relation. -/
theorem step_sim (k : Variant) (op : Op) (sr sc : St)
    (h : StRel k sr sc) : StRel k (step k false sr op) (step k true sc op) := by
  cases op with
  | mk i v off =>
      intro j
      simp only [step]
      by_cases hj : j = i
      · subst hj
        simp only [Function.update_same]
        exact (moveAssign_sim k (sr.slots j) (sc.slots j) _ _ _ _ (h j)
          (makeScalar_sim k v off _ _ _ _)).1
      · simp only [Function.update_noteq hj]
        exact h j
  | mv i j' =>
      intro j
      by_cases hij : i = j'
      · simp only [step, if_pos hij]
        exact h j
      · simp only [step, if_neg hij]
        by_cases hjj : j = j'
        · subst hjj
          simp only [Function.update_same]
          exact (moveAssign_sim k (sr.slots i) (sc.slots i) _ _ _ _ (h i)
            (h j)).2
        · simp only [Function.update_noteq hjj]
          by_cases hji : j = i
          · subst hji
            simp only [Function.update_same]
            exact (moveAssign_sim k (sr.slots j) (sc.slots j) _ _ _ _ (h j)
              (h j')).1
          · simp only [Function.update_noteq hji]
            exact h j
  | sw i j' =>
      intro j
      simp only [step]
      by_cases hjj : j = j'
      · subst hjj
        simp only [Function.update_same]
        exact (swapFn_sim k (sr.slots i) (sc.slots i) _ _ (h i) (h j)).2
      · simp only [Function.update_noteq hjj]
        by_cases hji : j = i
        · subst hji
          simp only [Function.update_same]
          exact (swapFn_sim k (sr.slots j) (sc.slots j) _ _ (h j) (h j')).1
        · simp only [Function.update_noteq hji]
          exact h j

theorem foldl_sim (k : Variant) (ops : List Op) (sr sc : St)
    (h : StRel k sr sc) :
    StRel k (ops.foldl (step k false) sr) (ops.foldl (step k true) sc) := by
  induction ops generalizing sr sc with
  | nil => exact h
  | cons op rest ih => exact ih _ _ (step_sim k op sr sc h)

/-- C7 counterexample: the two-statement program
`p0 = make_unique_small<SmallDerived>(); p1 = std::move(p0);` leaves `p0`
null under constant evaluation but non-null (pointing at the moved-from
object in its own buffer) at runtime: the two executions are observably
different on `p0`. -/
theorem constexpr_runtime_difference_counterexample :
    ((run (variantOf smallDerivedCT 64) false
        [.mk 0 32 0, .mv 1 0]).slots 0).get ≠
      ((run (variantOf smallDerivedCT 64) true
        [.mk 0 32 0, .mv 1 0]).slots 0).get := by decide

/-- C7 (amended): for every layout variant and every sequence of
construction, move-assignment and swap statements, the runtime execution and
the constant-evaluated execution agree on every owner variable up to
moved-from sources: whenever the constant-evaluated run leaves a variable
empty, the runtime run leaves it empty or pointing at a moved-from residue,
and otherwise both runs own an object with identical field values (and base
offset), even though constant evaluation always uses heap storage
internally. -/
theorem constexpr_runtime_equivalence (k : Variant) (ops : List Op)
    (i : Nat) :
    slotRel ((run k false ops).slots i) ((run k true ops).slots i) :=
  ((foldl_sim k ops initSt initSt (fun _ => SlotInv_null k)) i).2.2

end Smp

